import Mathlib

/-!
Verification development for the queue-processor job lifecycle handler
(`queue_processors/queue_processor/handle_message.py`).

The Python module is embedded shallowly: the database is an explicit record
of lists (runs, experiments, instruments, data locations, reduction
locations), handlers are pure functions from an environment, a message and a
database to a result record holding the new database, the emitted side
effects (published messages, scheduled delayed publishes, log lines), the
possibly-mutated message, and the Python exception that escaped the handler,
if any.  External collaborators (script resolution, the messaging client,
store-write failure) live in the environment.
-/

namespace QueueProc

/-- A Python value that can arrive in the `rb_number` field of a message:
an integer, a string, or Python's `None`. -/
inductive PyVal where
  | int (n : Int)
  | str (s : String)
  | pynone
deriving Repr, DecidableEq

/-- The whitespace characters Python's `int(...)` strips from a string. -/
def is_py_space (c : Char) : Bool :=
  c = ' ' ∨ c = '\t' ∨ c = '\n' ∨ c = '\r'

/-- Modelled from Python's built-in `int(...)` applied to a string, as used
by `is_valid_rb`: surrounding whitespace is stripped, an optional single
sign is allowed, and the rest must be one or more decimal digits; anything
else raises `ValueError`, which the model renders as `none`. -/
def py_int_of_string (s : String) : Option Int :=
  let cs := ((s.toList.dropWhile is_py_space).reverse.dropWhile
    is_py_space).reverse
  let readDigits : List Char → Option Int := fun digits =>
    if digits.isEmpty then none
    else if digits.all Char.isDigit then
      some (Int.ofNat
        (digits.foldl (fun acc c => acc * 10 + (c.toNat - 48)) 0))
    else none
  match cs with
  | [] => none
  | c :: rest =>
      if c = '-' then (readDigits rest).map (fun n => -n)
      else if c = '+' then readDigits rest
      else readDigits (c :: rest)

/-- Python's `int(value)` on the values `rb_number` can hold: an `int` is
returned unchanged, a string is parsed (`ValueError` on failure → `none`),
and `None` raises `TypeError` (→ `none`). -/
def py_int (v : PyVal) : Option Int :=
  match v with
  | .int n => some n
  | .str s => py_int_of_string s
  | .pynone => none

/-- `is_valid_rb` from `handle_message.py` (lines 26-38): `None` when the
value converts to an integer above 0, one of two error strings otherwise;
the `try`/`except (ValueError, TypeError)` makes it total. -/
def is_valid_rb (rb_number : PyVal) : Option String :=
  match py_int rb_number with
  | some n =>
      if n > 0 then none
      else some "RB Number is less than or equal to 0"
  | none => some "RB Number is a string"

/-- Run statuses, as resolved through `_UtilsClasses().status`. -/
inductive Status where
  | Queued
  | Skipped
  | Processing
  | Completed
  | Error
deriving Repr, DecidableEq

/-- One row of the ReductionRun table, with the fields `handle_message.py`
reads or writes.  Timestamps are abstract `Nat` instants; unset database
columns are `Option`. -/
structure ReductionRun where
  id : Nat
  run_number : Nat
  run_version : Int
  run_name : String
  experiment_id : Nat
  instrument_id : Nat
  status : Status
  cancel : Bool
  hidden_in_failviewer : Bool
  script : String
  message : Option String
  reduction_log : String
  admin_log : String
  created : Nat
  last_updated : Nat
  started : Option Nat
  finished : Option Nat
  started_by : Option Nat
deriving Repr, DecidableEq

/-- One row of the Experiment table: a surrogate id and the RB number it
was created for. -/
structure Experiment where
  id : Nat
  rb_number : PyVal
deriving Repr, DecidableEq

/-- One row of the Instrument table. -/
structure Instrument where
  id : Nat
  name : String
  is_active : Bool
  is_paused : Bool
deriving Repr, DecidableEq

/-- One row of the DataLocation table: an input path linked to a run. -/
structure DataLocation where
  file_path : String
  reduction_run_id : Nat
deriving Repr, DecidableEq

/-- One row of the ReductionLocation table: an output path linked to a run. -/
structure ReductionLocation where
  file_path : String
  reduction_run_id : Nat
deriving Repr, DecidableEq

/-- The persistent store the handlers read and write, with counters for the
next fresh surrogate ids. -/
structure DB where
  runs : List ReductionRun
  experiments : List Experiment
  instruments : List Instrument
  data_locations : List DataLocation
  reduction_locations : List ReductionLocation
  next_run_id : Nat
  next_experiment_id : Nat
  next_instrument_id : Nat
deriving Repr, DecidableEq

/-- A lifecycle message (`model.message.job.Message`), restricted to the
fields `handle_message.py` consumes or mutates. -/
structure Message where
  run_number : Nat
  run_version : Int
  rb_number : PyVal
  instrument : String
  data : String
  message : Option String
  reduction_log : String
  admin_log : String
  reduction_data : Option (List String)
  retry_in : Option Nat
  started_by : Option Nat
  reduction_script : String
  reduction_arguments : String
deriving Repr, DecidableEq

/-- An observable side effect of a handler: a message published immediately
to a destination, a delayed pending-queue publish of a (new) run scheduled
through `messaging.send_pending`, or a log line. -/
inductive Effect where
  | published (dest : String) (msg : Message)
  | sentPending (run_id : Nat) (delayMs : Nat)
  | loggedInfo (s : String)
  | loggedWarning (s : String)
  | loggedError (s : String)
deriving Repr, DecidableEq

/-- True for the immediate-publish effect to the given destination. -/
def Effect.isPublishedTo (dest : String) : Effect → Bool
  | .published d _ => d == dest
  | _ => false

/-- True for any effect that puts a message on a queue (immediate or
delayed). -/
def Effect.isPublish : Effect → Bool
  | .published _ _ => true
  | .sentPending _ _ => true
  | _ => false

/-- True for the delayed pending-queue publish effect. -/
def Effect.isSentPending : Effect → Bool
  | .sentPending _ _ => true
  | _ => false

/-- True for an error log line. -/
def Effect.isLoggedError : Effect → Bool
  | .loggedError _ => true
  | _ => false

/-- The literal destination `data_ready` publishes ready runs to
(`'/queue/ReductionPending'` in the source). -/
def reductionPendingQueue : String := "/queue/ReductionPending"

/-- Modelled from the spec: the reduction-skipped destination tag
(`ACTIVEMQ_SETTINGS.reduction_skipped`; the settings module is not among
the source files). -/
def reductionSkippedQueue : String := "/queue/ReductionSkipped"

/-- The handlers' environment: the current instant, the script-resolution
collaborator, and failure switches for the store's `save_record` and the
messaging client's `send_pending` (each raises when its switch is on). -/
structure Env where
  now : Nat
  currentScriptText : String → Option String
  variablesForRun : ReductionRun → Bool
  scriptAndArgs : ReductionRun → String × String
  saveRecordFails : Bool
  sendPendingFails : Bool

/-- The outcome of one handler invocation: the database after it, the side
effects it emitted in order, the message object (handlers mutate it in
place in Python), and the exception that escaped it, if any. -/
structure HResult where
  db : DB
  effects : List Effect
  msg : Message
  exn : Option String
deriving Repr, DecidableEq

/-- The outcome of `retry_run`, which takes no message. -/
structure RResult where
  db : DB
  effects : List Effect
  exn : Option String
deriving Repr, DecidableEq

/-- `db_access.get_experiment(rb)` without `create`: the first experiment
row with this RB number, if any. -/
def get_experiment (db : DB) (rb : PyVal) : Option Experiment :=
  db.experiments.find? (fun e => decide (e.rb_number = rb))

/-- `db_access.get_experiment(rb, create=True)`: return the existing row or
append a fresh one. -/
def get_or_create_experiment (db : DB) (rb : PyVal) : Experiment × DB :=
  match get_experiment db rb with
  | some e => (e, db)
  | none =>
      let e : Experiment := ⟨db.next_experiment_id, rb⟩
      (e, { db with
              experiments := db.experiments ++ [e],
              next_experiment_id := db.next_experiment_id + 1 })

/-- `save_record` on a database already updated in memory: it fails as a
whole when the store's failure switch is on (the Python call raises and
the write is lost), otherwise the updated database stands. -/
def try_save (env : Env) (db : DB) : Except String DB :=
  if env.saveRecordFails then .error "save_record failed" else .ok db

/-- `HandleMessage._get_db_inst`: get or create the instrument by name and
activate it (a store write, which can fail) when it is inactive.  A created
instrument starts active and unpaused. -/
def get_db_inst (env : Env) (db : DB) (instrument_name : String) :
    Except String (Instrument × DB) :=
  match db.instruments.find? (fun i => decide (i.name = instrument_name)) with
  | some inst =>
      if inst.is_active then .ok (inst, db)
      else
        let inst2 := { inst with is_active := true }
        match try_save env { db with
            instruments := db.instruments.map
              (fun i => if i.id = inst.id then inst2 else i) } with
        | .error e => .error e
        | .ok db2 => .ok (inst2, db2)
  | none =>
      let inst : Instrument :=
        ⟨db.next_instrument_id, instrument_name, true, false⟩
      .ok (inst, { db with
                     instruments := db.instruments ++ [inst],
                     next_instrument_id := db.next_instrument_id + 1 })

/-- The runs the version query of `_get_last_run_version` ranges over:
same run number and same experiment. -/
def matching_runs (db : DB) (run_no : Nat) (exp_id : Nat) : List ReductionRun :=
  db.runs.filter (fun r => decide (r.run_number = run_no ∧ r.experiment_id = exp_id))

/-- `HandleMessage._get_last_run_version` (lines 160-173): the greatest
`run_version` among the matching runs, or the sentinel `-1` when there is
none (`order_by('-run_version').first()`). -/
def get_last_run_version (db : DB) (run_no : Nat) (exp_id : Nat) : Int :=
  match (matching_runs db run_no exp_id).map (fun r => r.run_version) with
  | [] => -1
  | v :: vs => vs.foldl max v

/-- `HandleMessage.find_run` (lines 379-399): resolve the experiment by RB
number (without creating), then the first run with that experiment id, the
message's run number and the message's run version. -/
def find_run (msg : Message) (db : DB) : Option ReductionRun :=
  match get_experiment db msg.rb_number with
  | none => none
  | some e =>
      db.runs.find? (fun r =>
        decide (r.experiment_id = e.id ∧ r.run_number = msg.run_number ∧
                r.run_version = msg.run_version))

/-- `save_record` on an existing run row: replace every stored row carrying
this run's id. -/
def save_run (db : DB) (run : ReductionRun) : DB :=
  { db with runs := db.runs.map (fun r => if r.id = run.id then run else r) }

/-- `HandleMessage._create_reduction_run_record` (lines 141-158): the fresh
row, with empty logs, cleared flags, creation timestamps from the clock and
the next fresh surrogate id. -/
def create_reduction_run_record (env : Env) (msg : Message)
    (experiment : Experiment) (instrument : Instrument) (run_version : Int)
    (script_text : String) (status : Status) (rid : Nat) : ReductionRun :=
  { id := rid
    run_number := msg.run_number
    run_version := run_version
    run_name := ""
    experiment_id := experiment.id
    instrument_id := instrument.id
    status := status
    cancel := false
    hidden_in_failviewer := false
    script := script_text
    message := none
    reduction_log := ""
    admin_log := ""
    created := env.now
    last_updated := env.now
    started := none
    finished := none
    started_by := msg.started_by }

/-- `HandleMessage._construct_and_send_skipped` (lines 188-199): overwrite
the message's text with the skip reason and publish it to the
reduction-skipped destination. -/
def construct_and_send_skipped (reason : String) (msg : Message) :
    Message × Effect :=
  let text := "Reduction Skipped: " ++ reason ++
    ". Assuming run number to be a calibration run."
  let msg2 := { msg with message := some text }
  (msg2, Effect.published reductionSkippedQueue msg2)

/-- Modelled from the spec: the Run Store's retry-creation capability
(`_utils.reduction_run.create_retry_run`, whose module is not among the
source files) — a new persisted ReductionRun with the same run number and
experiment, version one above the given run's, status Queued and the given
actor as `started_by`. -/
def create_retry_run (env : Env) (user_id : Option Nat)
    (reduction_run : ReductionRun) (db : DB) : ReductionRun × DB :=
  let new_run := { reduction_run with
    id := db.next_run_id
    run_version := reduction_run.run_version + 1
    status := Status.Queued
    started_by := user_id
    message := none
    started := none
    finished := none
    created := env.now
    last_updated := env.now }
  (new_run, { db with runs := db.runs ++ [new_run],
                      next_run_id := db.next_run_id + 1 })

/-- Modelled from the spec: the Message Channel's delayed publish
(`_utils.messaging.send_pending(new_job, delay)`, whose module is not among
the source files) — schedule the job on the reduction-pending destination
after `delayMs` milliseconds, or raise when the channel fails. -/
def send_pending (env : Env) (run_id : Nat) (delayMs : Nat) :
    Except String Effect :=
  if env.sendPendingFails then .error "send_pending failed"
  else .ok (Effect.sentPending run_id delayMs)

/-- `HandleMessage.retry_run` (lines 401-418): abort on a cancelled run;
otherwise create the retry version and schedule its delayed publish,
converting seconds to milliseconds; a publish failure is logged and
re-raised. -/
def retry_run (env : Env) (user_id : Option Nat)
    (reduction_run : ReductionRun) (retry_in : Nat) (db : DB) : RResult :=
  if reduction_run.cancel then
    { db := db, effects := [Effect.loggedInfo "Cancelling run retry"],
      exn := none }
  else
    let (new_job, db2) := create_retry_run env user_id reduction_run db
    match send_pending env new_job.id (retry_in * 1000) with
    | .error e =>
        { db := db2,
          effects := [Effect.loggedInfo "Retrying run",
                      Effect.loggedError e],
          exn := some e }
    | .ok eff =>
        { db := db2,
          effects := [Effect.loggedInfo "Retrying run", eff],
          exn := none }

/-- The in-place mutation `reduction_error` applies to a found run before
saving it: status Error, `finished = now`, and the message's texts. -/
def error_run_update (env : Env) (msg : Message) (run : ReductionRun) :
    ReductionRun :=
  { run with
    status := Status.Error
    finished := some env.now
    message := msg.message
    reduction_log := msg.reduction_log
    admin_log := msg.admin_log }

@[simp] theorem error_run_update_run_version (env : Env) (msg : Message)
    (run : ReductionRun) :
    (error_run_update env msg run).run_version = run.run_version := rfl

@[simp] theorem error_run_update_id (env : Env) (msg : Message)
    (run : ReductionRun) :
    (error_run_update env msg run).id = run.id := rfl

@[simp] theorem error_run_update_run_number (env : Env) (msg : Message)
    (run : ReductionRun) :
    (error_run_update env msg run).run_number = run.run_number := rfl

@[simp] theorem error_run_update_experiment_id (env : Env) (msg : Message)
    (run : ReductionRun) :
    (error_run_update env msg run).experiment_id = run.experiment_id := rfl

@[simp] theorem error_run_update_cancel (env : Env) (msg : Message)
    (run : ReductionRun) :
    (error_run_update env msg run).cancel = run.cancel := rfl

/-- The version bound `reduction_error` consults before retrying: the
experiment is looked up again (without creating) and the greatest existing
version taken; an absent experiment row matches no runs. -/
def error_retry_max_version (msg : Message) (db2 : DB) : Int :=
  match get_experiment db2 msg.rb_number with
  | some e => get_last_run_version db2 msg.run_number e.id
  | none => -1

/-- `HandleMessage.reduction_error` (lines 325-377): when the run is found,
mark it Error with the message's texts and a finished timestamp and save
it; then, when `retry_in` is set, look up the greatest existing version and
either delegate to `retry_run` (at most 4) or clear `retry_in` (above 4).
A missing run is logged and nothing more happens. -/
def reduction_error (env : Env) (msg : Message) (db : DB) : HResult :=
  match find_run msg db with
  | none =>
      { db := db,
        effects := [Effect.loggedError "reduction_error: run not found"],
        msg := msg, exn := none }
  | some reduction_run =>
      let run2 := error_run_update env msg reduction_run
      match try_save env (save_run db run2) with
      | .error e => { db := db, effects := [], msg := msg, exn := some e }
      | .ok db2 =>
          match msg.retry_in with
          | none => { db := db2, effects := [], msg := msg, exn := none }
          | some t =>
              let max_version := error_retry_max_version msg db2
              if max_version ≤ 4 then
                let r := retry_run env msg.started_by run2 t db2
                { db := r.db, effects := r.effects, msg := msg, exn := r.exn }
              else
                { db := db2, effects := [],
                  msg := { msg with retry_in := none }, exn := none }

/-- `HandleMessage.reduction_started` (lines 201-235): a found run in
status Error or Queued moves to Processing with a started timestamp and is
saved; a found run in any other status, or a missing run, is logged as an
error and left alone. -/
def reduction_started (env : Env) (msg : Message) (db : DB) : HResult :=
  match find_run msg db with
  | none =>
      { db := db,
        effects := [Effect.loggedError "reduction_started: run not found"],
        msg := msg, exn := none }
  | some reduction_run =>
      if reduction_run.status = Status.Error ∨
         reduction_run.status = Status.Queued then
        let run2 := { reduction_run with
          status := Status.Processing
          started := some env.now }
        match try_save env (save_run db run2) with
        | .error e => { db := db, effects := [], msg := msg, exn := some e }
        | .ok db2 => { db := db2, effects := [], msg := msg, exn := none }
      else
        { db := db,
          effects :=
            [Effect.loggedError "reduction_started: invalid re-start"],
          msg := msg, exn := none }

/-- The per-location writes of `reduction_complete`: one persisted
ReductionLocation per path, each an independent `save_record` that can
raise (leaving the earlier writes in place). -/
def save_reduction_locations (env : Env) (run_id : Nat)
    (paths : List String) (db : DB) : Except String DB :=
  match paths with
  | [] => .ok db
  | p :: rest =>
      match try_save env { db with
          reduction_locations :=
            db.reduction_locations ++ [⟨p, run_id⟩] } with
      | .error e => .error e
      | .ok db2 => save_reduction_locations env run_id rest db2

/-- The body of `HandleMessage.reduction_complete` (lines 243-284), before
the surrounding `try`: a found Processing run moves to Completed with the
message's texts and a finished timestamp, one ReductionLocation is
persisted per path of `reduction_data` when that field is present, and the
run is saved; any other status, or a missing run, is logged and left
alone. -/
def reduction_complete_body (env : Env) (msg : Message) (db : DB) : HResult :=
  match find_run msg db with
  | none =>
      { db := db,
        effects := [Effect.loggedError "reduction_complete: run not found"],
        msg := msg, exn := none }
  | some reduction_run =>
      if reduction_run.status = Status.Processing then
        let run2 := { reduction_run with
          status := Status.Completed
          finished := some env.now
          message := msg.message
          reduction_log := msg.reduction_log
          admin_log := msg.admin_log }
        let afterLocations :=
          match msg.reduction_data with
          | none => Except.ok db
          | some paths => save_reduction_locations env run2.id paths db
        match afterLocations with
        | .error e => { db := db, effects := [], msg := msg, exn := some e }
        | .ok db2 =>
            match try_save env (save_run db2 run2) with
            | .error e =>
                { db := db2, effects := [], msg := msg, exn := some e }
            | .ok db3 => { db := db3, effects := [], msg := msg, exn := none }
      else
        { db := db,
          effects :=
            [Effect.loggedError "reduction_complete: run was not processing"],
          msg := msg, exn := none }

/-- `HandleMessage.reduction_complete` (lines 237-287): the body wrapped in
`try ... except BaseException`, which logs the escaped exception and
swallows it. -/
def reduction_complete (env : Env) (msg : Message) (db : DB) : HResult :=
  let r := reduction_complete_body env msg db
  match r.exn with
  | none => r
  | some e =>
      { db := r.db, effects := r.effects ++ [Effect.loggedError e],
        msg := r.msg, exn := none }

/-- `HandleMessage.reduction_skipped` (lines 289-323): a missing run is
logged and left alone; a found run is unconditionally marked Skipped with
the message's texts and a finished timestamp and saved. -/
def reduction_skipped (env : Env) (msg : Message) (db : DB) : HResult :=
  match find_run msg db with
  | none =>
      { db := db,
        effects := [Effect.loggedError "reduction_skipped: run not found"],
        msg := msg, exn := none }
  | some reduction_run =>
      let run2 := { reduction_run with
        status := Status.Skipped
        finished := some env.now
        message := msg.message
        reduction_log := msg.reduction_log
        admin_log := msg.admin_log }
      match try_save env (save_run db run2) with
      | .error e => { db := db, effects := [], msg := msg, exn := some e }
      | .ok db2 => { db := db2, effects := [], msg := msg, exn := none }

/-- `HandleMessage.data_ready` (lines 65-139): resolve (and maybe activate)
the instrument, pick Skipped or Queued from its pause flag, get or create
the experiment, set the message's run version to the last version plus one,
divert to `reduction_error` when no current script exists, otherwise
persist the new run and its DataLocation, attach script and arguments to
the message, divert invalid RB numbers to the skipped queue, and finally
publish to reduction-pending unless the instrument is paused. -/
def data_ready (env : Env) (msg : Message) (db : DB) : HResult :=
  match get_db_inst env db msg.instrument with
  | .error e => { db := db, effects := [], msg := msg, exn := some e }
  | .ok (instrument, db1) =>
      let status :=
        if instrument.is_paused then Status.Skipped else Status.Queued
      let (experiment, db2) := get_or_create_experiment db1 msg.rb_number
      let run_version :=
        get_last_run_version db2 msg.run_number experiment.id + 1
      let msg1 := { msg with run_version := run_version }
      match env.currentScriptText msg.instrument with
      | none => reduction_error env msg1 db2
      | some script_text =>
          let reduction_run := create_reduction_run_record env msg1
            experiment instrument run_version script_text status
            db2.next_run_id
          match try_save env { db2 with
              runs := db2.runs ++ [reduction_run],
              next_run_id := db2.next_run_id + 1 } with
          | .error e => { db := db2, effects := [], msg := msg1, exn := some e }
          | .ok db3 =>
              match try_save env { db3 with
                  data_locations := db3.data_locations ++
                    [⟨msg.data, reduction_run.id⟩] } with
              | .error e =>
                  { db := db3, effects := [], msg := msg1, exn := some e }
              | .ok db4 =>
                  let effs :=
                    if env.variablesForRun reduction_run then []
                    else [Effect.loggedWarning "No instrument variables found"]
                  let (rscript, args) := env.scriptAndArgs reduction_run
                  let msg2 := { msg1 with
                    reduction_script := rscript
                    reduction_arguments := args }
                  match is_valid_rb msg.rb_number with
                  | some err =>
                      let (msg3, eff) := construct_and_send_skipped err msg2
                      { db := db4, effects := effs ++ [eff], msg := msg3,
                        exn := none }
                  | none =>
                      if instrument.is_paused then
                        { db := db4,
                          effects := effs ++
                            [Effect.loggedInfo "Run has been skipped"],
                          msg := msg2, exn := none }
                      else
                        { db := db4,
                          effects := effs ++
                            [Effect.published reductionPendingQueue msg2],
                          msg := msg2, exn := none }

/-! Helper lemmas shared by the claim theorems. -/

theorem try_save_of_ok {env : Env} (db : DB) (h : env.saveRecordFails = false) :
    try_save env db = .ok db := by
  simp [try_save, h]

theorem get_or_create_experiment_frame (db : DB) (rb : PyVal) :
    (get_or_create_experiment db rb).2.runs = db.runs ∧
    (get_or_create_experiment db rb).2.data_locations = db.data_locations ∧
    (get_or_create_experiment db rb).2.reduction_locations =
      db.reduction_locations ∧
    (get_or_create_experiment db rb).2.next_run_id = db.next_run_id := by
  cases h : get_experiment db rb <;> simp [get_or_create_experiment, h]

theorem get_db_inst_frame {env : Env} {db : DB} {nm : String}
    {inst : Instrument} {db1 : DB}
    (h : get_db_inst env db nm = .ok (inst, db1)) :
    db1.runs = db.runs ∧ db1.experiments = db.experiments ∧
    db1.data_locations = db.data_locations ∧
    db1.reduction_locations = db.reduction_locations ∧
    db1.next_run_id = db.next_run_id ∧
    db1.next_experiment_id = db.next_experiment_id := by
  unfold get_db_inst at h
  rcases hf : db.instruments.find? (fun i => decide (i.name = nm)) with _ | inst0 <;>
    rw [hf] at h
  · cases h
    simp
  · by_cases ha : inst0.is_active
    · simp [ha] at h
      rcases h with ⟨h1, h2⟩
      subst h2
      simp
    · simp [ha, try_save] at h
      rcases hs : env.saveRecordFails <;> rw [hs] at h <;> simp at h
      rcases h with ⟨h1, h2⟩
      subst h2
      simp

theorem get_last_run_version_of_nil {db : DB} {run_no exp_id : Nat}
    (h : matching_runs db run_no exp_id = []) :
    get_last_run_version db run_no exp_id = -1 := by
  simp [get_last_run_version, h]

theorem le_foldl_max (vs : List Int) (v : Int) : v ≤ vs.foldl max v := by
  induction vs generalizing v with
  | nil => simp
  | cons a t ih => simpa using le_trans (le_max_left v a) (ih (max v a))

theorem mem_le_foldl_max {vs : List Int} {x : Int} (h : x ∈ vs) (v : Int) :
    x ≤ vs.foldl max v := by
  induction vs generalizing v with
  | nil => cases h
  | cons a t ih =>
    rcases List.mem_cons.mp h with rfl | h
    · simpa using le_trans (le_max_right v x) (le_foldl_max t _)
    · simpa using ih h (max v a)

/-- Every matching run's version is at most `get_last_run_version`. -/
theorem run_version_le_last {db : DB} {run_no exp_id : Nat}
    {r : ReductionRun} (hr : r ∈ db.runs) (hn : r.run_number = run_no)
    (he : r.experiment_id = exp_id) :
    r.run_version ≤ get_last_run_version db run_no exp_id := by
  have hmem : r ∈ matching_runs db run_no exp_id := by
    simp [matching_runs, List.mem_filter, hr, hn, he]
  have hv : r.run_version ∈
      (matching_runs db run_no exp_id).map (fun r => r.run_version) :=
    List.mem_map_of_mem _ hmem
  unfold get_last_run_version
  rcases hl : (matching_runs db run_no exp_id).map (fun r => r.run_version) with
    _ | ⟨v, vs⟩
  · rw [hl] at hv
    simp at hv
  · rw [hl] at hv
    rw [hl]
    rcases List.mem_cons.mp hv with h | h
    · exact h ▸ le_foldl_max vs v
    · exact mem_le_foldl_max h v

/-- C10: `is_valid_rb(value)` returns `None` exactly when the value
converts to an integer above 0 (in particular for `5` and `"7"`), returns
the string "RB Number is less than or equal to 0" exactly when it converts
to an integer at most 0, returns "RB Number is a string" exactly when the
conversion raises `ValueError` or `TypeError`, and, being a total function
of the model, never raises. -/
theorem C10_is_valid_rb (v : PyVal) :
    (is_valid_rb v = none ↔ ∃ n, py_int v = some n ∧ 0 < n) ∧
    (is_valid_rb v = some "RB Number is less than or equal to 0" ↔
      ∃ n, py_int v = some n ∧ n ≤ 0) ∧
    (is_valid_rb v = some "RB Number is a string" ↔ py_int v = none) ∧
    is_valid_rb (PyVal.int 5) = none ∧
    is_valid_rb (PyVal.str "7") = none ∧
    is_valid_rb (PyVal.int 0) =
      some "RB Number is less than or equal to 0" ∧
    is_valid_rb (PyVal.int (-3)) =
      some "RB Number is less than or equal to 0" ∧
    is_valid_rb (PyVal.str "abc") = some "RB Number is a string" := by
  refine ⟨?_, ?_, ?_, by decide, by decide, by decide, by decide, by decide⟩ <;>
    rcases h : py_int v with _ | n <;>
      simp only [is_valid_rb, h, gt_iff_lt] <;>
        simp

/-! Concrete fixtures used by the witness and counterexample theorems. -/

/-- A healthy environment: clock at 100, a current script for every
instrument, variables and script arguments resolvable, no store or channel
failures. -/
def env0 : Env :=
  { now := 100
    currentScriptText := fun _ => some "print(1)"
    variablesForRun := fun _ => true
    scriptAndArgs := fun _ => ("script-text", "args")
    saveRecordFails := false
    sendPendingFails := false }

/-- A stored run: version 0 of run 5 of experiment 0, Queued, not
cancelled. -/
def run0 : ReductionRun :=
  { id := 0, run_number := 5, run_version := 0, run_name := ""
    experiment_id := 0, instrument_id := 0, status := Status.Queued
    cancel := false, hidden_in_failviewer := false, script := "print(1)"
    message := none, reduction_log := "", admin_log := ""
    created := 0, last_updated := 0, started := none, finished := none
    started_by := none }

/-- The experiment run0 belongs to, RB number 1234. -/
def exp0 : Experiment := ⟨0, PyVal.int 1234⟩

/-- An active, unpaused instrument. -/
def inst0 : Instrument := ⟨0, "WISH", true, false⟩

/-- A store holding exactly run0, exp0 and inst0. -/
def db0 : DB := ⟨[run0], [exp0], [inst0], [], [], 1, 1, 1⟩

/-- A message addressing run0 (run 5, version 0, RB 1234). -/
def msg0 : Message :=
  { run_number := 5, run_version := 0, rb_number := PyVal.int 1234
    instrument := "WISH", data := "/data/run5.nxs"
    message := some "done", reduction_log := "rlog", admin_log := "alog"
    reduction_data := some ["a.nxs", "b.nxs"], retry_in := none
    started_by := some 7, reduction_script := "", reduction_arguments := "" }

/-- C3: `reduction_started` moves a found run whose status is Error or
Queued to Processing with `started = now` and saves it; a found run in any
other status, or a missing run, leaves the store untouched and an error in
the log. -/
theorem C3_reduction_started (env : Env) (msg : Message) (db : DB)
    (hsave : env.saveRecordFails = false) :
    (∀ run, find_run msg db = some run →
      ((run.status = Status.Error ∨ run.status = Status.Queued) →
        (reduction_started env msg db).db =
          save_run db { run with status := Status.Processing,
                                 started := some env.now } ∧
        (reduction_started env msg db).exn = none) ∧
      (¬(run.status = Status.Error ∨ run.status = Status.Queued) →
        (reduction_started env msg db).db = db ∧
        ∃ s, Effect.loggedError s ∈ (reduction_started env msg db).effects)) ∧
    (find_run msg db = none →
      (reduction_started env msg db).db = db ∧
      ∃ s, Effect.loggedError s ∈ (reduction_started env msg db).effects) := by
  constructor
  · intro run hf
    constructor
    · intro hst
      simp [reduction_started, hf, hst, try_save, hsave]
    · intro hst
      simp [reduction_started, hf, hst]
  · intro hf
    simp [reduction_started, hf]

/-- C3 witness: on the concrete store db0, whose run0 is Queued, the
handler produces the Processing run with a started timestamp. -/
theorem C3_reduction_started_witness :
    (reduction_started env0 msg0 db0).db =
      save_run db0 { run0 with status := Status.Processing,
                               started := some 100 } ∧
    (reduction_started env0 msg0 db0).exn = none := by
  have h := C3_reduction_started env0 msg0 db0 rfl
  have hf : find_run msg0 db0 = some run0 := by decide
  have hq : run0.status = Status.Error ∨ run0.status = Status.Queued :=
    Or.inr rfl
  exact (h.1 run0 hf).1 hq

/-- Mapping an elementwise update over a list carries `find?` from the
found element to its update when the update satisfies the predicate and no
failing element becomes anything but the update. -/
theorem find?_map_update {α : Type} (p : α → Bool) (f : α → α)
    (l : List α) (a b : α)
    (hf : l.find? p = some a) (hfa : f a = b) (hpb : p b = true)
    (hstable : ∀ x, p x = false → f x = x ∨ f x = b) :
    (l.map f).find? p = some b := by
  induction l with
  | nil => simp at hf
  | cons x t ih =>
    rcases hx : p x with _ | _
    · simp only [List.find?, hx] at hf
      rcases hstable x hx with h | h
      · simp only [List.map_cons, List.find?, h, hx]
        exact ih hf
      · simp only [List.map_cons, List.find?, h, hpb]
    · simp only [List.find?, hx, Option.some.injEq] at hf
      subst hf
      simp only [List.map_cons, List.find?, hfa, hpb]

/-- Replacing a found run by an update that keeps the identity triple and
the row id makes `find_run` return the update. -/
theorem find_run_save_run {msg : Message} {db : DB} {r r2 : ReductionRun}
    (hf : find_run msg db = some r)
    (hid : r2.id = r.id)
    (hexp : r2.experiment_id = r.experiment_id)
    (hnum : r2.run_number = r.run_number)
    (hver : r2.run_version = r.run_version) :
    find_run msg (save_run db r2) = some r2 := by
  unfold find_run at hf ⊢
  rcases he : get_experiment db msg.rb_number with _ | e <;>
    simp only [he] at hf
  · cases hf
  · have he2 : get_experiment (save_run db r2) msg.rb_number = some e := he
    simp only [he2]
    have hruns : (save_run db r2).runs =
        db.runs.map (fun x => if x.id = r2.id then r2 else x) := rfl
    rw [hruns]
    have hpredr := List.find?_some hf
    simp only [decide_eq_true_eq] at hpredr
    refine find?_map_update _ _ _ r r2 hf ?_ ?_ ?_
    · rw [if_pos hid.symm]
    · simp only [decide_eq_true_eq]
      exact ⟨hexp.trans hpredr.1, hnum.trans hpredr.2.1,
             hver.trans hpredr.2.2⟩
    · intro x _
      by_cases hxi : x.id = r2.id
      · right
        rw [if_pos hxi]
      · left
        rw [if_neg hxi]

/-- Writing the same run row twice is the same as writing it once. -/
theorem save_run_save_run (db : DB) (r : ReductionRun) :
    save_run (save_run db r) r = save_run db r := by
  have hff : ((fun x : ReductionRun => if x.id = r.id then r else x) ∘
      (fun x : ReductionRun => if x.id = r.id then r else x)) =
      (fun x : ReductionRun => if x.id = r.id then r else x) := by
    funext x
    by_cases h : x.id = r.id <;> simp [h]
  simp only [save_run, List.map_map, hff]

/-- C7: `reduction_skipped` unconditionally overwrites a found run with
status Skipped, `finished = now` and the message's texts and saves it, so a
second identical call rewrites the same values and the final store equals
the store after one call; it publishes nothing; a missing run only logs an
error. -/
theorem C7_reduction_skipped (env : Env) (msg : Message) (db : DB)
    (hsave : env.saveRecordFails = false) :
    (reduction_skipped env msg ((reduction_skipped env msg db).db)).db =
      (reduction_skipped env msg db).db ∧
    (∀ run, find_run msg db = some run →
      (reduction_skipped env msg db).db =
        save_run db { run with status := Status.Skipped,
                               finished := some env.now,
                               message := msg.message,
                               reduction_log := msg.reduction_log,
                               admin_log := msg.admin_log }) ∧
    ((reduction_skipped env msg db).effects.filter Effect.isPublish = []) ∧
    (find_run msg db = none →
      (reduction_skipped env msg db).db = db ∧
      ∃ s, Effect.loggedError s ∈ (reduction_skipped env msg db).effects) := by
  rcases hf : find_run msg db with _ | r
  · refine ⟨?_, ?_, ?_, ?_⟩
    · simp [reduction_skipped, hf]
    · intro run hr
      cases hr
    · simp [reduction_skipped, hf, Effect.isPublish]
    · intro _
      simp [reduction_skipped, hf]
  · have h1 : (reduction_skipped env msg db).db =
        save_run db { r with status := Status.Skipped,
                             finished := some env.now,
                             message := msg.message,
                             reduction_log := msg.reduction_log,
                             admin_log := msg.admin_log } := by
      simp [reduction_skipped, hf, try_save, hsave]
    refine ⟨?_, ?_, ?_, ?_⟩
    · rw [h1]
      have hf2 : find_run msg
          (save_run db { r with status := Status.Skipped,
                                finished := some env.now,
                                message := msg.message,
                                reduction_log := msg.reduction_log,
                                admin_log := msg.admin_log }) =
          some { r with status := Status.Skipped,
                        finished := some env.now,
                        message := msg.message,
                        reduction_log := msg.reduction_log,
                        admin_log := msg.admin_log } :=
        find_run_save_run hf rfl rfl rfl rfl
      simp [reduction_skipped, hf2, try_save, hsave, save_run_save_run]
    · intro run hr
      cases hr
      exact h1
    · simp [reduction_skipped, hf, try_save, hsave, Effect.isPublish]
    · intro h
      cases h

/-- C7 witness: skipping run0 twice on the concrete store db0 leaves the
same store as skipping it once, and that store holds the Skipped run with
msg0's texts. -/
theorem C7_reduction_skipped_witness :
    (reduction_skipped env0 msg0
        ((reduction_skipped env0 msg0 db0).db)).db =
      (reduction_skipped env0 msg0 db0).db ∧
    (reduction_skipped env0 msg0 db0).db =
      save_run db0 { run0 with status := Status.Skipped,
                               finished := some 100,
                               message := msg0.message,
                               reduction_log := msg0.reduction_log,
                               admin_log := msg0.admin_log } := by
  have h := C7_reduction_skipped env0 msg0 db0 rfl
  exact ⟨h.1, h.2.1 run0 (by decide)⟩

/-- With the store healthy, the per-location loop appends exactly one
ReductionLocation per path. -/
theorem save_reduction_locations_ok {env : Env} (rid : Nat)
    (paths : List String) (db : DB) (h : env.saveRecordFails = false) :
    save_reduction_locations env rid paths db =
      .ok { db with reduction_locations := db.reduction_locations ++
              paths.map (fun p => ⟨p, rid⟩) } := by
  induction paths generalizing db with
  | nil => simp [save_reduction_locations]
  | cons p rest ih =>
    simp only [save_reduction_locations, try_save, h, Bool.false_eq_true,
      if_false, ih, List.map_cons]
    congr 1
    simp

/-- C4: `reduction_complete` on a found Processing run marks it Completed
with `finished = now` and the message's texts, appends exactly one
ReductionLocation per path of `reduction_data` (none when the field is
absent), and saves the run; on a found run in any other status, or a
missing run, the store is untouched and an error is logged.  No exception
escapes. -/
theorem C4_reduction_complete (env : Env) (msg : Message) (db : DB)
    (hsave : env.saveRecordFails = false) :
    (reduction_complete env msg db).exn = none ∧
    (∀ run, find_run msg db = some run →
      (run.status = Status.Processing →
        (reduction_complete env msg db).db.runs =
          db.runs.map (fun r =>
            if r.id = run.id then
              { run with status := Status.Completed,
                         finished := some env.now,
                         message := msg.message,
                         reduction_log := msg.reduction_log,
                         admin_log := msg.admin_log }
            else r) ∧
        (reduction_complete env msg db).db.reduction_locations =
          db.reduction_locations ++
            (msg.reduction_data.getD []).map
              (fun p => (⟨p, run.id⟩ : ReductionLocation)) ∧
        (reduction_complete env msg db).db.data_locations =
          db.data_locations ∧
        (reduction_complete env msg db).db.experiments = db.experiments) ∧
      (run.status ≠ Status.Processing →
        (reduction_complete env msg db).db = db ∧
        ∃ s, Effect.loggedError s ∈ (reduction_complete env msg db).effects)) ∧
    (find_run msg db = none →
      (reduction_complete env msg db).db = db ∧
      ∃ s, Effect.loggedError s ∈ (reduction_complete env msg db).effects) := by
  rcases hf : find_run msg db with _ | r
  · refine ⟨?_, ?_, ?_⟩
    · simp [reduction_complete, reduction_complete_body, hf]
    · intro run hr
      cases hr
    · intro _
      simp [reduction_complete, reduction_complete_body, hf]
  · refine ⟨?_, ?_, ?_⟩
    · by_cases hst : r.status = Status.Processing
      · rcases hd : msg.reduction_data with _ | paths <;>
          simp [reduction_complete, reduction_complete_body, hf, hst, hd,
            try_save, hsave, save_reduction_locations_ok]
      · simp [reduction_complete, reduction_complete_body, hf, hst]
    · intro run hr
      cases hr
      constructor
      · intro hst
        rcases hd : msg.reduction_data with _ | paths <;>
          simp [reduction_complete, reduction_complete_body, hf, hst, hd,
            try_save, hsave, save_reduction_locations_ok, save_run]
      · intro hst
        simp [reduction_complete, reduction_complete_body, hf, hst]
    · intro h
      cases h

/-- The Processing variant of run0 and the store holding it. -/
def run0p : ReductionRun := { run0 with status := Status.Processing }

/-- db0 with its run Processing instead of Queued. -/
def db0p : DB := ⟨[run0p], [exp0], [inst0], [], [], 1, 1, 1⟩

/-- C4 witness: completing the Processing run0p with reduction_data
`["a.nxs", "b.nxs"]` yields the Completed run and exactly the two location
records. -/
theorem C4_reduction_complete_witness :
    (reduction_complete env0 msg0 db0p).exn = none ∧
    (reduction_complete env0 msg0 db0p).db.runs =
      db0p.runs.map (fun r =>
        if r.id = run0p.id then
          { run0p with status := Status.Completed,
                       finished := some 100,
                       message := msg0.message,
                       reduction_log := msg0.reduction_log,
                       admin_log := msg0.admin_log }
        else r) ∧
    (reduction_complete env0 msg0 db0p).db.reduction_locations =
      db0p.reduction_locations ++
        (msg0.reduction_data.getD []).map
          (fun p => (⟨p, run0p.id⟩ : ReductionLocation)) := by
  have h := C4_reduction_complete env0 msg0 db0p rfl
  have hf : find_run msg0 db0p = some run0p := by decide
  have hp := (h.2.1 run0p hf).1 rfl
  exact ⟨h.1, hp.1, hp.2.1⟩

/-- C8: no exception escapes `reduction_complete` for any environment,
message and store — a failure raised inside the body is logged instead;
and the guard is not vacuous: with a failing store, finding a Processing
run makes the body raise, and the handler still returns normally with the
failure in the log. -/
theorem C8_reduction_complete_catches (env : Env) (msg : Message) (db : DB) :
    (reduction_complete env msg db).exn = none ∧
    (∀ e, (reduction_complete_body env msg db).exn = some e →
      Effect.loggedError e ∈ (reduction_complete env msg db).effects) ∧
    (env.saveRecordFails = true →
      ∀ run, find_run msg db = some run → run.status = Status.Processing →
        ∃ e, (reduction_complete_body env msg db).exn = some e ∧
          Effect.loggedError e ∈ (reduction_complete env msg db).effects) := by
  refine ⟨?_, ?_, ?_⟩
  · rcases hx : (reduction_complete_body env msg db).exn with _ | e <;>
      simp [reduction_complete, hx]
  · intro e he
    simp [reduction_complete, he]
  · intro hsv run hf hst
    rcases hd : msg.reduction_data with _ | paths
    · simp [reduction_complete, reduction_complete_body, hf, hst, hd,
        try_save, hsv]
    · cases paths <;>
        simp [reduction_complete, reduction_complete_body, hf, hst, hd,
          try_save, save_reduction_locations, hsv]

/-- C5: `retry_run` on a cancelled run changes nothing and publishes
nothing; on an uncancelled run it creates exactly one new run version
through the retry-creation capability and schedules exactly one delayed
pending-queue publish with delay `retry_in * 1000` milliseconds; and when
that publish raises, the failure is logged and the exception is re-raised
to the caller. -/
theorem C5_retry_run (env : Env) (user_id : Option Nat)
    (reduction_run : ReductionRun) (retry_in : Nat) (db : DB) :
    (reduction_run.cancel = true →
      (retry_run env user_id reduction_run retry_in db).db = db ∧
      (retry_run env user_id reduction_run retry_in db).effects.filter
        Effect.isPublish = [] ∧
      (retry_run env user_id reduction_run retry_in db).exn = none) ∧
    (reduction_run.cancel = false → env.sendPendingFails = false →
      (retry_run env user_id reduction_run retry_in db).db =
        (create_retry_run env user_id reduction_run db).2 ∧
      (retry_run env user_id reduction_run retry_in db).db.runs =
        db.runs ++ [(create_retry_run env user_id reduction_run db).1] ∧
      (create_retry_run env user_id reduction_run db).1.run_version =
        reduction_run.run_version + 1 ∧
      (create_retry_run env user_id reduction_run db).1.status =
        Status.Queued ∧
      (create_retry_run env user_id reduction_run db).1.started_by =
        user_id ∧
      (retry_run env user_id reduction_run retry_in db).effects.filter
          Effect.isPublish =
        [Effect.sentPending
          (create_retry_run env user_id reduction_run db).1.id
          (retry_in * 1000)] ∧
      (retry_run env user_id reduction_run retry_in db).exn = none) ∧
    (reduction_run.cancel = false → env.sendPendingFails = true →
      (retry_run env user_id reduction_run retry_in db).exn ≠ none ∧
      (∃ s, Effect.loggedError s ∈
        (retry_run env user_id reduction_run retry_in db).effects) ∧
      (retry_run env user_id reduction_run retry_in db).effects.filter
        Effect.isSentPending = []) := by
  refine ⟨?_, ?_, ?_⟩
  · intro hc
    simp [retry_run, hc, Effect.isPublish]
  · intro hc hs
    simp [retry_run, hc, create_retry_run, send_pending, hs,
      Effect.isPublish, Effect.isSentPending]
  · intro hc hs
    simp [retry_run, hc, create_retry_run, send_pending, hs,
      Effect.isPublish, Effect.isSentPending]

/-- The cancelled variant of run0 and the store holding it. -/
def run0c : ReductionRun := { run0 with cancel := true }

/-- db0 with its run cancelled. -/
def db0c : DB := ⟨[run0c], [exp0], [inst0], [], [], 1, 1, 1⟩

/-- msg0 with a 30-second retry request. -/
def msg0r : Message := { msg0 with retry_in := some 30 }

/-- C2 counterexample: a reduction_error message whose run is found, with
`retry_in = 30` set and the maximum existing version 0 ≤ 4 — yet, because
the stored run carries the cancel flag, no new run version is created and
no delayed publish is scheduled, contradicting the claim as stated. -/
theorem C2_counterexample :
    msg0r.retry_in = some 30 ∧
    find_run msg0r db0c = some run0c ∧
    get_last_run_version db0c 5 0 ≤ 4 ∧
    (reduction_error env0 msg0r db0c).db.runs.length =
      db0c.runs.length ∧
    (reduction_error env0 msg0r db0c).effects.filter
      Effect.isSentPending = [] := by
  refine ⟨rfl, by decide, by decide, ?_, ?_⟩ <;> decide

/-- C2 (amended): on a found run the handler saves it as Error with
`finished = now` and the message's texts; then, only when `retry_in` is
set: with maximum existing version at most 4 and the run not cancelled it
creates exactly one new run version and schedules exactly one delayed
pending publish with delay `retry_in * 1000` ms; with the run cancelled it
creates and publishes nothing; with maximum version above 4 it publishes
nothing and clears the message's `retry_in`. -/
theorem C2_reduction_error (env : Env) (msg : Message) (db : DB)
    (hsave : env.saveRecordFails = false)
    (hsend : env.sendPendingFails = false) :
    ∀ run, find_run msg db = some run →
      (msg.retry_in = none →
        (reduction_error env msg db).db =
          save_run db (error_run_update env msg run) ∧
        (reduction_error env msg db).effects.filter Effect.isPublish = [] ∧
        (reduction_error env msg db).msg = msg) ∧
      (∀ t, msg.retry_in = some t →
        (error_retry_max_version msg
            (save_run db (error_run_update env msg run)) ≤ 4 →
          run.cancel = false →
          (reduction_error env msg db).db.runs =
            (save_run db (error_run_update env msg run)).runs ++
              [(create_retry_run env msg.started_by
                  (error_run_update env msg run)
                  (save_run db (error_run_update env msg run))).1] ∧
          (create_retry_run env msg.started_by
              (error_run_update env msg run)
              (save_run db (error_run_update env msg run))).1.run_version =
            run.run_version + 1 ∧
          (reduction_error env msg db).effects.filter Effect.isSentPending =
            [Effect.sentPending
              (create_retry_run env msg.started_by
                  (error_run_update env msg run)
                  (save_run db (error_run_update env msg run))).1.id
              (t * 1000)] ∧
          (reduction_error env msg db).exn = none) ∧
        (error_retry_max_version msg
            (save_run db (error_run_update env msg run)) ≤ 4 →
          run.cancel = true →
          (reduction_error env msg db).db =
            save_run db (error_run_update env msg run) ∧
          (reduction_error env msg db).effects.filter Effect.isPublish = []) ∧
        (4 < error_retry_max_version msg
            (save_run db (error_run_update env msg run)) →
          (reduction_error env msg db).db =
            save_run db (error_run_update env msg run) ∧
          (reduction_error env msg db).effects.filter Effect.isPublish = [] ∧
          (reduction_error env msg db).msg.retry_in = none)) := by
  intro run hf
  constructor
  · intro ht
    simp [reduction_error, hf, ht, try_save, hsave, Effect.isPublish]
  · intro t ht
    refine ⟨?_, ?_, ?_⟩
    · intro hle hc
      have hc2 : (error_run_update env msg run).cancel = false := hc
      simp [reduction_error, hf, ht, try_save, hsave, hle, retry_run, hc, hc2,
        create_retry_run, send_pending, hsend, Effect.isSentPending]
    · intro hle hc
      have hc2 : (error_run_update env msg run).cancel = true := hc
      simp [reduction_error, hf, ht, try_save, hsave, hle, retry_run, hc, hc2,
        Effect.isPublish]
    · intro hgt
      have hle : ¬(error_retry_max_version msg
          (save_run db (error_run_update env msg run)) ≤ 4) := by omega
      simp [reduction_error, hf, ht, try_save, hsave, hle, Effect.isPublish]

/-- C2 witness: on the uncancelled Queued run0 with `retry_in = 30`, the
handler appends exactly one new run version (version 1) and schedules
exactly one delayed publish of 30000 ms. -/
theorem C2_reduction_error_witness :
    (reduction_error env0 msg0r db0).db.runs =
      (save_run db0 (error_run_update env0 msg0r run0)).runs ++
        [(create_retry_run env0 msg0r.started_by
            (error_run_update env0 msg0r run0)
            (save_run db0 (error_run_update env0 msg0r run0))).1] ∧
    (create_retry_run env0 msg0r.started_by
        (error_run_update env0 msg0r run0)
        (save_run db0 (error_run_update env0 msg0r run0))).1.run_version =
      run0.run_version + 1 ∧
    (reduction_error env0 msg0r db0).effects.filter Effect.isSentPending =
      [Effect.sentPending
        (create_retry_run env0 msg0r.started_by
            (error_run_update env0 msg0r run0)
            (save_run db0 (error_run_update env0 msg0r run0))).1.id
        30000] := by
  have h := C2_reduction_error env0 msg0r db0 rfl rfl run0 (by decide)
  have hp := (h.2 30 rfl).1 (by decide) rfl
  exact ⟨hp.1, hp.2.1, hp.2.2.1⟩

/-- C1: with a current script and a valid RB number, `data_ready` persists
exactly one new ReductionRun whose version is the latest existing version
for the (run number, experiment) pair plus one (`-1` sentinel when none
exists, so the first persisted version is 0); the run is Queued and the
message is published to reduction-pending when the instrument is unpaused,
and the run is Skipped with no pending publish when it is paused. -/
theorem C1_data_ready (env : Env) (msg : Message) (db : DB)
    (inst : Instrument) (db1 : DB) (exp : Experiment) (db2 : DB)
    (script_text : String)
    (hsave : env.saveRecordFails = false)
    (hinst : get_db_inst env db msg.instrument = .ok (inst, db1))
    (hexp : get_or_create_experiment db1 msg.rb_number = (exp, db2))
    (hscript : env.currentScriptText msg.instrument = some script_text)
    (hrb : is_valid_rb msg.rb_number = none) :
    ∃ r, (data_ready env msg db).db.runs = db.runs ++ [r] ∧
      r.run_number = msg.run_number ∧
      r.run_version = get_last_run_version db2 msg.run_number exp.id + 1 ∧
      r.experiment_id = exp.id ∧
      r.status = (if inst.is_paused then Status.Skipped else Status.Queued) ∧
      (matching_runs db2 msg.run_number exp.id = [] → r.run_version = 0) ∧
      (data_ready env msg db).exn = none ∧
      (inst.is_paused = false →
        (data_ready env msg db).effects.filter
            (Effect.isPublishedTo reductionPendingQueue) =
          [Effect.published reductionPendingQueue
            (data_ready env msg db).msg] ∧
        (data_ready env msg db).msg.run_version = r.run_version) ∧
      (inst.is_paused = true →
        (data_ready env msg db).effects.filter
          (Effect.isPublishedTo reductionPendingQueue) = []) := by
  have hfr1 := get_db_inst_frame hinst
  have hfr2 := get_or_create_experiment_frame db1 msg.rb_number
  rw [hexp] at hfr2
  have h2run : db2.runs = db.runs := hfr2.1.trans hfr1.1
  refine ⟨create_reduction_run_record env
      { msg with run_version :=
          get_last_run_version db2 msg.run_number exp.id + 1 }
      exp inst (get_last_run_version db2 msg.run_number exp.id + 1)
      script_text
      (if inst.is_paused then Status.Skipped else Status.Queued)
      db2.next_run_id, ?_, rfl, rfl, rfl, rfl, ?_, ?_, ?_, ?_⟩
  · simp only [data_ready, hinst, hexp, hscript, try_save, hsave,
      Bool.false_eq_true, if_false, hrb]
    rcases hv : env.variablesForRun _ with _ | _ <;>
      rcases hp : inst.is_paused with _ | _ <;>
        simp [h2run]
  · intro hm
    simp [get_last_run_version_of_nil hm, create_reduction_run_record]
  · simp only [data_ready, hinst, hexp, hscript, try_save, hsave,
      Bool.false_eq_true, if_false, hrb]
    rcases hv : env.variablesForRun _ with _ | _ <;>
      rcases hp : inst.is_paused with _ | _ <;>
        simp
  · intro hp
    simp only [data_ready, hinst, hexp, hscript, try_save, hsave,
      Bool.false_eq_true, if_false, hrb, hp]
    rcases hv : env.variablesForRun _ with _ | _ <;>
      simp [Effect.isPublishedTo, create_reduction_run_record]
  · intro hp
    simp only [data_ready, hinst, hexp, hscript, try_save, hsave,
      Bool.false_eq_true, if_false, hrb, hp]
    rcases hv : env.variablesForRun _ with _ | _ <;>
      simp [Effect.isPublishedTo]

/-- C1 witness: on the concrete store db0, which already holds version 0
of run 5, the handler persists exactly one new run with version 1, Queued,
and publishes exactly one message to reduction-pending. -/
theorem C1_data_ready_witness :
    ∃ r, (data_ready env0 msg0 db0).db.runs = db0.runs ++ [r] ∧
      r.run_version = 1 ∧
      r.status = Status.Queued ∧
      (data_ready env0 msg0 db0).effects.filter
          (Effect.isPublishedTo reductionPendingQueue) =
        [Effect.published reductionPendingQueue (data_ready env0 msg0 db0).msg] := by
  obtain ⟨r, h1, _, h3, _, h5, _, _, h8, _⟩ :=
    C1_data_ready env0 msg0 db0 inst0 db0 exp0 db0 "print(1)"
      rfl rfl rfl rfl rfl
  refine ⟨r, h1, ?_, ?_, (h8 rfl).1⟩
  · rw [h3]
    decide
  · rw [h5]
    decide

/-- C9: when the RB number is invalid, `data_ready` has already persisted
the new run — exactly the record built at creation, whose status is Queued
for an unpaused instrument (Skipped for a paused one) and is never
downgraded afterwards — then rewrites the message's text to the skip
notice and publishes exactly one message, to the reduction-skipped
destination. -/
theorem C9_data_ready_invalid_rb (env : Env) (msg : Message) (db : DB)
    (inst : Instrument) (db1 : DB) (exp : Experiment) (db2 : DB)
    (script_text err : String)
    (hsave : env.saveRecordFails = false)
    (hinst : get_db_inst env db msg.instrument = .ok (inst, db1))
    (hexp : get_or_create_experiment db1 msg.rb_number = (exp, db2))
    (hscript : env.currentScriptText msg.instrument = some script_text)
    (hrb : is_valid_rb msg.rb_number = some err) :
    ∃ r, (data_ready env msg db).db.runs = db.runs ++ [r] ∧
      r = create_reduction_run_record env
            { msg with run_version :=
                get_last_run_version db2 msg.run_number exp.id + 1 }
            exp inst (get_last_run_version db2 msg.run_number exp.id + 1)
            script_text
            (if inst.is_paused then Status.Skipped else Status.Queued)
            db2.next_run_id ∧
      r.status = (if inst.is_paused then Status.Skipped else Status.Queued) ∧
      (data_ready env msg db).msg.message =
        some ("Reduction Skipped: " ++ err ++
              ". Assuming run number to be a calibration run.") ∧
      (data_ready env msg db).effects.filter Effect.isPublish =
        [Effect.published reductionSkippedQueue (data_ready env msg db).msg] ∧
      (data_ready env msg db).exn = none := by
  have hfr1 := get_db_inst_frame hinst
  have hfr2 := get_or_create_experiment_frame db1 msg.rb_number
  rw [hexp] at hfr2
  have h2run : db2.runs = db.runs := hfr2.1.trans hfr1.1
  refine ⟨create_reduction_run_record env
      { msg with run_version :=
          get_last_run_version db2 msg.run_number exp.id + 1 }
      exp inst (get_last_run_version db2 msg.run_number exp.id + 1)
      script_text
      (if inst.is_paused then Status.Skipped else Status.Queued)
      db2.next_run_id, ?_, rfl, rfl, ?_, ?_, ?_⟩
  · simp only [data_ready, hinst, hexp, hscript, try_save, hsave,
      Bool.false_eq_true, if_false, hrb, construct_and_send_skipped]
    simp [h2run]
  · simp only [data_ready, hinst, hexp, hscript, try_save, hsave,
      Bool.false_eq_true, if_false, hrb, construct_and_send_skipped]
  · simp only [data_ready, hinst, hexp, hscript, try_save, hsave,
      Bool.false_eq_true, if_false, hrb, construct_and_send_skipped]
    rcases hv : env.variablesForRun _ with _ | _ <;>
      simp [Effect.isPublish]
  · simp only [data_ready, hinst, hexp, hscript, try_save, hsave,
      Bool.false_eq_true, if_false, hrb, construct_and_send_skipped]

/-- msg0 with an invalid (non-numeric) RB number. -/
def msg0bad : Message := { msg0 with rb_number := PyVal.str "abc" }

/-- An experiment row keyed by the invalid RB number "abc". -/
def exp0bad : Experiment := ⟨0, PyVal.str "abc"⟩

/-- db0 with its experiment keyed by the invalid RB number "abc". -/
def db0bad : DB := ⟨[run0], [exp0bad], [inst0], [], [], 1, 1, 1⟩

/-- C9 witness: a data_ready message with RB number "abc" persists the new
Queued run anyway and publishes exactly one message, to the
reduction-skipped destination, with the skip notice in its text. -/
theorem C9_data_ready_invalid_rb_witness :
    ∃ r, (data_ready env0 msg0bad db0bad).db.runs = db0bad.runs ++ [r] ∧
      r.status = Status.Queued ∧
      (data_ready env0 msg0bad db0bad).msg.message =
        some ("Reduction Skipped: RB Number is a string" ++
              ". Assuming run number to be a calibration run.") ∧
      (data_ready env0 msg0bad db0bad).effects.filter Effect.isPublish =
        [Effect.published reductionSkippedQueue
          (data_ready env0 msg0bad db0bad).msg] := by
  obtain ⟨r, h1, _, h3, h4, h5, _⟩ :=
    C9_data_ready_invalid_rb env0 msg0bad db0bad inst0 db0bad exp0bad db0bad
      "print(1)" "RB Number is a string" rfl rfl rfl rfl (by decide)
  refine ⟨r, h1, ?_, h4, h5⟩
  rw [h3]
  decide

/-- After get-or-create, looking the experiment up again returns exactly
the experiment that was returned. -/
theorem get_experiment_after_create (db : DB) (rb : PyVal) :
    get_experiment (get_or_create_experiment db rb).2 rb =
      some (get_or_create_experiment db rb).1 := by
  rcases h : get_experiment db rb with _ | e
  · simp only [get_or_create_experiment, h]
    unfold get_experiment at h ⊢
    simp [List.find?_append, h]
  · simp [get_or_create_experiment, h]

/-- C6: when script resolution yields no script, `data_ready` hands the
message (with its freshly incremented run version) to `reduction_error`;
no run and no DataLocation is persisted, nothing is published or scheduled,
an error is logged, `retry_in` is left untouched even when set, and no
exception escapes. -/
theorem C6_data_ready_no_script (env : Env) (msg : Message) (db : DB)
    (inst : Instrument) (db1 : DB) (exp : Experiment) (db2 : DB)
    (hinst : get_db_inst env db msg.instrument = .ok (inst, db1))
    (hexp : get_or_create_experiment db1 msg.rb_number = (exp, db2))
    (hscript : env.currentScriptText msg.instrument = none) :
    (data_ready env msg db).db.runs = db.runs ∧
    (data_ready env msg db).db.data_locations = db.data_locations ∧
    (data_ready env msg db).effects.filter Effect.isPublish = [] ∧
    (∃ s, Effect.loggedError s ∈ (data_ready env msg db).effects) ∧
    (data_ready env msg db).msg.retry_in = msg.retry_in ∧
    (data_ready env msg db).exn = none := by
  have hfr1 := get_db_inst_frame hinst
  have hfr2 := get_or_create_experiment_frame db1 msg.rb_number
  rw [hexp] at hfr2
  have h2run : db2.runs = db.runs := hfr2.1.trans hfr1.1
  have h2dl : db2.data_locations = db.data_locations :=
    hfr2.2.1.trans hfr1.2.2.1
  have hge : get_experiment db2 msg.rb_number = some exp := by
    have := get_experiment_after_create db1 msg.rb_number
    rw [hexp] at this
    exact this
  have hnone : find_run
      { msg with run_version :=
          get_last_run_version db2 msg.run_number exp.id + 1 } db2 = none := by
    unfold find_run
    rw [hge]
    apply List.find?_eq_none.mpr
    intro r hr
    simp only [decide_eq_true_eq, not_and]
    intro h1 h2 h3
    have hle := run_version_le_last hr h2 h1
    omega
  simp only [data_ready, hinst, hexp, hscript, reduction_error, hnone]
  simp [h2run, h2dl, Effect.isPublish]

/-- An environment whose script resolution finds no script. -/
def envNS : Env := { env0 with currentScriptText := fun _ => none }

/-- C6 witness: with script resolution empty, data_ready on db0 persists
nothing, publishes nothing, logs an error and leaves `retry_in = 30`
untouched. -/
theorem C6_data_ready_no_script_witness :
    (data_ready envNS msg0r db0).db.runs = db0.runs ∧
    (data_ready envNS msg0r db0).db.data_locations = db0.data_locations ∧
    (data_ready envNS msg0r db0).effects.filter Effect.isPublish = [] ∧
    (∃ s, Effect.loggedError s ∈ (data_ready envNS msg0r db0).effects) ∧
    (data_ready envNS msg0r db0).msg.retry_in = some 30 :=
  let h := C6_data_ready_no_script envNS msg0r db0 inst0 db0 exp0 db0
    rfl rfl rfl
  ⟨h.1, h.2.1, h.2.2.1, h.2.2.2.1, h.2.2.2.2.1⟩

end QueueProc
